import Mathlib

/-
Verification development for the Loblaw Bio cell-count analysis pipeline
(src/Main_Analysis_Pipeline.py).  The pipeline has three phases:
(a) a Schema Normalizer: initialize_database loads the raw CSV rows and
    builds three SQLite tables (subject_table, project_table, sample_table)
    via INSERT ... SELECT [DISTINCT] statements, with PRAGMA foreign_keys ON;
(b) a Frequency Reshaper: pandas melt of the five count columns, a sort by
    the sample column, and a percentage column computed as count/total_count;
(c) a Cohort Filter and Comparator: two inner merges with the subject and
    project tables, a hardcoded equality filter, and a per-population
    scipy ttest_ind loop producing (population, p_value, verdict) rows.

The embedding below follows the source statement by statement.  Machine
floats of pandas are modelled by exact rationals extended with nan and
signed infinities (the Rfloat type); SQLite TEXT-to-INTEGER CAST, SUBSTR
and PRINTF are modelled by the executable functions sqliteCastInt,
substr4 and printf04d.
-/

deriving instance DecidableEq for Except

/-! ### SQLite string primitives -/

/-- Characters treated as leading whitespace by the SQLite text-to-integer
conversion (sqlite3Atoi64). -/
def sqliteIsSpace (c : Char) : Bool :=
  c = ' ' || c = '\t' || c = '\n' || c = '\x0b' || c = '\x0c' || c = '\r'

/-- Drop leading SQLite whitespace. -/
def skipSpaces : List Char → List Char
  | [] => []
  | c :: cs => if sqliteIsSpace c then skipSpaces cs else c :: cs

/-- Numeric value of a decimal digit character. -/
def digitVal (c : Char) : Int := (c.toNat : Int) - 48

/-- Leading run of decimal digit characters. -/
def takeDigits (cs : List Char) : List Char := cs.takeWhile Char.isDigit

/-- Decimal value of a digit string. -/
def digitsToInt (ds : List Char) : Int := ds.foldl (fun a c => a * 10 + digitVal c) 0

/-- CAST(s AS INTEGER) in SQLite: skip leading whitespace, read an optional
sign and then the longest run of leading decimal digits; any string with no
such digits converts to 0.  (The int64 overflow clamp of SQLite is not
modelled; every identifier considered here is far below that range.) -/
def sqliteCastInt (s : String) : Int :=
  match skipSpaces s.data with
  | [] => 0
  | c :: cs =>
    if c = '-' then - digitsToInt (takeDigits cs)
    else if c = '+' then digitsToInt (takeDigits cs)
    else digitsToInt (takeDigits (c :: cs))

/-- Whether a character list starts (after optional whitespace and sign)
with at least one decimal digit, i.e. whether SQLite CAST finds a leading
integer; when it does not, the CAST result is 0. -/
def hasLeadingInt (cs : List Char) : Bool :=
  match skipSpaces cs with
  | [] => false
  | c :: cs' =>
    if c = '-' then !(takeDigits cs').isEmpty
    else if c = '+' then !(takeDigits cs').isEmpty
    else c.isDigit

/-- SUBSTR(s, 4) in SQLite: the suffix starting at the fourth character
(SQLite positions are 1-based), i.e. the string after dropping three
characters. -/
def substr4 (s : String) : String := String.mk (s.data.drop 3)

/-- Decimal digit characters of a natural number, most significant first,
written with explicit structural fuel so that the kernel can evaluate it;
natDigits supplies fuel n + 1, which always suffices since n / 10 < n. -/
def natDigitsAux : Nat → Nat → List Char
  | 0, _ => []
  | fuel + 1, n =>
    if n < 10 then [Char.ofNat (48 + n)]
    else natDigitsAux fuel (n / 10) ++ [Char.ofNat (48 + n % 10)]

/-- Decimal digit characters of a natural number, most significant first. -/
def natDigits (n : Nat) : List Char := natDigitsAux (n + 1) n

/-- Pad a character list on the left with c up to length k. -/
def leftPad (c : Char) (k : Nat) (ds : List Char) : List Char :=
  List.replicate (k - ds.length) c ++ ds

/-- PRINTF with the format percent-04d in SQLite/C: decimal rendering of i,
zero-padded on the left to a minimum width of four characters, the sign
counting towards the width; wider numbers are rendered in full, never
truncated. -/
def printf04d (i : Int) : String :=
  if i < 0 then String.mk ('-' :: leftPad '0' 3 (natDigits i.natAbs))
  else String.mk (leftPad '0' 4 (natDigits i.natAbs))

/-- The subject-identifier rewrite used in both INSERT statements of the
source (lines 71 and 125):
sbj || PRINTF(percent-04d, CAST(SUBSTR(subject, 4) AS INTEGER)). -/
def rewriteSubject (s : String) : String :=
  "sbj" ++ printf04d (sqliteCastInt (substr4 s))

/-- Decides whether a string matches the anchored pattern sbj followed by
exactly four decimal digits. -/
def matchesSbj4 (s : String) : Bool :=
  match s.data with
  | 's' :: 'b' :: 'j' :: rest => rest.length == 4 && rest.all Char.isDigit
  | _ => false

/-! ### Raw rows and the normalized relations -/

/-- One row of the raw cell-count CSV as loaded into the cell-count table.
REAL-typed count columns are modelled by exact rationals. -/
structure RawRow where
  sample : String
  subject : String
  project : String
  condition : String
  age : Int
  sex : String
  treatment : String
  response : String
  sample_type : String
  time_from_treatment_start : Option Int
  b_cell : ℚ
  cd8_t_cell : ℚ
  cd4_t_cell : ℚ
  nk_cell : ℚ
  monocyte : ℚ
deriving DecidableEq

/-- A row of subject_table (source lines 60-67). -/
structure SubjectRow where
  subject : String
  condition : String
  age : Int
  sex : String
  treatment : String
  response : String
deriving DecidableEq

/-- A row of project_table (source lines 96-99). -/
structure ProjectRow where
  project : String
  sample_type : String
deriving DecidableEq

/-- A row of sample_table (source lines 110-122). -/
structure SampleRow where
  sample : String
  subject : String
  project : String
  time_from_treatment_start : Option Int
  b_cell : ℚ
  cd8_t_cell : ℚ
  cd4_t_cell : ℚ
  nk_cell : ℚ
  monocyte : ℚ
deriving DecidableEq

/-- Errors raised by SQLite during the INSERT statements, surfaced to the
caller as sqlite3.IntegrityError.  A PRIMARY KEY uniqueness failure carries
exactly the text UNIQUE constraint failed: table.column — it names the
table and the column but not the offending key value; a FOREIGN KEY
failure (PRAGMA foreign_keys is ON, source line 25) carries the text
FOREIGN KEY constraint failed, with no detail at all. -/
inductive SqlError where
  | pkViolation (table : String) (column : String)
  | fkViolation
deriving DecidableEq

/-- SELECT DISTINCT, with an accumulator of values already emitted: a value
is kept exactly when it has not been seen before. -/
def dedupAux {β : Type} [DecidableEq β] (seen : List β) : List β → List β
  | [] => []
  | x :: xs => if x ∈ seen then dedupAux seen xs else x :: dedupAux (seen ++ [x]) xs

/-- SELECT DISTINCT: keep the first occurrence of every value, in order. -/
def dedupF {β : Type} [DecidableEq β] (l : List β) : List β := dedupAux [] l

/-- Row-by-row INSERT into a table whose TEXT PRIMARY KEY column is named
col and extracted by key: the statement fails with a pkViolation naming
the table and the column at the first row whose key is already present
(the whole statement is atomic, so an error leaves no partial table). -/
def insertPKRows {β : Type} (tbl col : String) (key : β → String) :
    List β → List β → Except SqlError (List β)
  | acc, [] => .ok acc
  | acc, r :: rs =>
    if key r ∈ acc.map key then .error (.pkViolation tbl col)
    else insertPKRows tbl col key (acc ++ [r]) rs

/-- The subject-table tuple built from a raw row by the SELECT list of
source line 71 (rewritten subject, then the five attributes verbatim). -/
def toSubjectRow (r : RawRow) : SubjectRow :=
  ⟨rewriteSubject r.subject, r.condition, r.age, r.sex, r.treatment, r.response⟩

/-- subject_table construction (source lines 59-72): SELECT DISTINCT over
the rewritten tuples, inserted into a table with subject as PRIMARY KEY. -/
def subject_table (rows : List RawRow) : Except SqlError (List SubjectRow) :=
  insertPKRows "subject_table" "subject" (fun t => t.subject) []
    (dedupF (rows.map toSubjectRow))

/-- project_table construction (source lines 95-103): SELECT DISTINCT
(project, sample_type), inserted with project as PRIMARY KEY. -/
def project_table (rows : List RawRow) : Except SqlError (List ProjectRow) :=
  insertPKRows "project_table" "project" (fun t => t.project) []
    (dedupF (rows.map (fun r => ProjectRow.mk r.project r.sample_type)))

/-- The sample-table tuple built from a raw row by the SELECT list of
source line 125 (no DISTINCT; the subject rewrite is applied again). -/
def toSampleRow (r : RawRow) : SampleRow :=
  ⟨r.sample, rewriteSubject r.subject, r.project, r.time_from_treatment_start,
    r.b_cell, r.cd8_t_cell, r.cd4_t_cell, r.nk_cell, r.monocyte⟩

/-- Row-by-row INSERT into sample_table: PRIMARY KEY check on sample, and
the two FOREIGN KEY checks declared on source lines 120-121 (enforced at
insert time because PRAGMA foreign_keys is ON). -/
def insertSampleRows (subjectKeys projectKeys : List String) :
    List SampleRow → List SampleRow → Except SqlError (List SampleRow)
  | acc, [] => .ok acc
  | acc, t :: ts =>
    if t.sample ∈ acc.map (fun u => u.sample) then
      .error (.pkViolation "sample_table" "sample")
    else if t.subject ∉ subjectKeys then
      .error .fkViolation
    else if t.project ∉ projectKeys then
      .error .fkViolation
    else insertSampleRows subjectKeys projectKeys (acc ++ [t]) ts

/-- sample_table construction (source lines 109-126): every raw row is
copied (no DISTINCT), with the rewritten subject, into a table whose
PRIMARY KEY is sample and whose foreign keys reference the two tables
already built. -/
def sample_table (subs : List SubjectRow) (projs : List ProjectRow)
    (rows : List RawRow) : Except SqlError (List SampleRow) :=
  insertSampleRows (subs.map (fun s => s.subject)) (projs.map (fun p => p.project))
    [] (rows.map toSampleRow)

/-- The normalized store: the three relations produced by the SQL script. -/
structure DB where
  subject_table : List SubjectRow
  project_table : List ProjectRow
  sample_table : List SampleRow
deriving DecidableEq

/-- initialize_database (source lines 22-132): the three INSERT statements
run in script order; the first SQLite error aborts the script. -/
def init_database (rows : List RawRow) : Except SqlError DB := do
  let subs ← subject_table rows
  let projs ← project_table rows
  let samps ← sample_table subs projs rows
  return ⟨subs, projs, samps⟩

/-- Running the normalizer against a store holding prior contents: the
script begins with DROP TABLE IF EXISTS for each table (source lines 59, 95
and 109) and the raw CSV is loaded with if_exists replace (source line 28),
so the prior store is discarded entirely and the result depends only on the
raw input rows. -/
def init_store (rows : List RawRow) (_prior : DB) : Except SqlError DB :=
  init_database rows

/-! ### Part 2: the Frequency Reshaper -/

/-- Model of an IEEE float value as produced by pandas column arithmetic:
an exact rational, or nan, or a signed infinity.  Rounding of float64 is
not modelled; the spec tolerance of 1e-9 absorbs it. -/
inductive Rfloat where
  | nan
  | inf
  | ninf
  | val (q : ℚ)
deriving DecidableEq

/-- Float division of pandas/numpy: a 0/0 entry is nan, a nonzero/0 entry
is a signed infinity, and otherwise the exact quotient. -/
def fdiv (a b : ℚ) : Rfloat :=
  if b = 0 then (if a = 0 then Rfloat.nan else if 0 < a then Rfloat.inf else Rfloat.ninf)
  else Rfloat.val (a / b)

/-- The float comparison used in the verdict: any comparison with nan is
false; infinities compare in the usual way. -/
def rltb : Rfloat → Rfloat → Bool
  | .nan, _ => false
  | _, .nan => false
  | .ninf, .ninf => false
  | .ninf, _ => true
  | _, .ninf => false
  | .inf, _ => false
  | .val _, .inf => true
  | .val a, .val b => decide (a < b)

/-- total_count of a sample row: the sum of the five count columns
(source line 140). -/
def totalCount (t : SampleRow) : ℚ :=
  t.b_cell + t.cd8_t_cell + t.cd4_t_cell + t.nk_cell + t.monocyte

/-- One row of the melted frame df_total_melt before the percentage column
is added: the id_vars (every column that is not a count column, including
the freshly computed total_count) plus the population/count pair
(source lines 143-149). -/
structure MeltRow where
  sample : String
  subject : String
  project : String
  time_from_treatment_start : Option Int
  total_count : ℚ
  population : String
  count : ℚ
deriving DecidableEq

/-- The five melted count columns, in the value_vars order of the source
(line 143). -/
def melt_cols : List (String × (SampleRow → ℚ)) :=
  [("b_cell", fun t => t.b_cell),
   ("cd8_t_cell", fun t => t.cd8_t_cell),
   ("cd4_t_cell", fun t => t.cd4_t_cell),
   ("nk_cell", fun t => t.nk_cell),
   ("monocyte", fun t => t.monocyte)]

/-- The melt rows contributed by one count column: one row per sample row,
in table order. -/
def meltOne (nmf : String × (SampleRow → ℚ)) (samps : List SampleRow) : List MeltRow :=
  samps.map (fun t =>
    ⟨t.sample, t.subject, t.project, t.time_from_treatment_start,
      totalCount t, nmf.1, nmf.2 t⟩)

/-- pd.melt (source lines 144-149): variable-major order, i.e. all rows for
b_cell first, then all rows for cd8_t_cell, and so on. -/
def df_melt (samps : List SampleRow) : List MeltRow :=
  melt_cols.flatMap (fun nmf => meltOne nmf samps)

/-- Lexicographic comparison of strings by character code, the ordering
pandas uses when sorting a string column. -/
def leChars : List Char → List Char → Bool
  | [], _ => true
  | _ :: _, [] => false
  | a :: as, b :: bs =>
    if a.toNat < b.toNat then true
    else if b.toNat < a.toNat then false
    else leChars as bs

/-- Comparison of melt rows by their sample column. -/
def leSample (a b : MeltRow) : Bool := leChars a.sample.data b.sample.data

/-- Insertion into a sorted list of melt rows. -/
def insertSorted (x : MeltRow) : List MeltRow → List MeltRow
  | [] => [x]
  | y :: ys => if leSample x y then x :: y :: ys else y :: insertSorted x ys

/-- One admissible implementation of df.sort_values(by=sample)
(source line 151): a comparison sort producing a sorted permutation of its
input.  pandas documents only sortedness for the default quicksort kind;
this deterministic implementation is used for the executable pipeline,
while the pandas contract itself is the relation pandasSortOutput below. -/
def sortMelt : List MeltRow → List MeltRow
  | [] => []
  | x :: xs => insertSorted x (sortMelt xs)

/-- Sortedness of a melt frame by the sample column. -/
def SortedBySample (l : List MeltRow) : Prop :=
  List.Pairwise (fun a b => leSample a b = true) l

/-- The guarantee pandas gives for df.sort_values(by=sample) with the
default kind=quicksort (source line 151): the output is a permutation of
the input that is sorted by the sample column.  The default quicksort is
documented as not stable, so nothing more is guaranteed about ties. -/
def pandasSortOutput (l out : List MeltRow) : Prop :=
  out.Perm l ∧ SortedBySample out

/-- Stability of a sort of a melt frame with respect to the sample keys:
for every key the rows carrying that key appear in the same order in the
output as in the input. -/
def TieStable (l out : List MeltRow) : Prop :=
  ∀ s : String, out.filter (fun m => m.sample == s) = l.filter (fun m => m.sample == s)

/-- A row of df_total_melt after the percentage column is added
(source line 153): percentage = count / total_count in float arithmetic. -/
structure FreqRow where
  sample : String
  subject : String
  project : String
  time_from_treatment_start : Option Int
  total_count : ℚ
  population : String
  count : ℚ
  percentage : Rfloat
deriving DecidableEq

/-- Adding the percentage column to one melt row. -/
def addPercentage (m : MeltRow) : FreqRow :=
  ⟨m.sample, m.subject, m.project, m.time_from_treatment_start,
    m.total_count, m.population, m.count, fdiv m.count m.total_count⟩

/-- df_total_melt as it stands after source line 153: melted, sorted by
sample, with the percentage column. -/
def df_total_melt (samps : List SampleRow) : List FreqRow :=
  (sortMelt (df_melt samps)).map addPercentage

/-- A row of summary_table (source line 154): the five displayed columns. -/
structure SummaryRow where
  sample : String
  total_count : ℚ
  population : String
  count : ℚ
  percentage : Rfloat
deriving DecidableEq

/-- Column selection of source line 154. -/
def toSummaryRow (f : FreqRow) : SummaryRow :=
  ⟨f.sample, f.total_count, f.population, f.count, f.percentage⟩

/-- summary_table (source line 154). -/
def summary_table (samps : List SampleRow) : List SummaryRow :=
  (df_total_melt samps).map toSummaryRow

/-- summary_table computed from the normalized store. -/
def summaryOf (db : DB) : List SummaryRow := summary_table db.sample_table

/-! ### Part 3: join, cohort filter and comparator -/

/-- A row of df_master: the melted row joined with its subject and project
metadata (source lines 162-163). -/
structure MasterRow where
  sample : String
  subject : String
  project : String
  time_from_treatment_start : Option Int
  total_count : ℚ
  population : String
  count : ℚ
  percentage : Rfloat
  condition : String
  age : Int
  sex : String
  treatment : String
  response : String
  sample_type : String
deriving DecidableEq

/-- Combining a melted row with its matching subject and project rows. -/
def mkMaster (f : FreqRow) (s : SubjectRow) (p : ProjectRow) : MasterRow :=
  ⟨f.sample, f.subject, f.project, f.time_from_treatment_start, f.total_count,
    f.population, f.count, f.percentage,
    s.condition, s.age, s.sex, s.treatment, s.response, p.sample_type⟩

/-- The two inner merges of source lines 162-163: pd.merge with how=inner
keeps, for each left row in order, one combined row per matching right row.
With unique right keys this is exclusion-by-absence. -/
def df_master (freq : List FreqRow) (subs : List SubjectRow)
    (projs : List ProjectRow) : List MasterRow :=
  (freq.flatMap (fun f =>
    (subs.filter (fun s => s.subject == f.subject)).map (fun s => (f, s)))).flatMap
    (fun fs =>
      (projs.filter (fun p => p.project == fs.1.project)).map
        (fun p => mkMaster fs.1 fs.2 p))

/-- df_master computed from the normalized store. -/
def masterOf (db : DB) : List MasterRow :=
  df_master (df_total_melt db.sample_table) db.subject_table db.project_table

/-- The hardcoded cohort filter of source lines 166-170. -/
def filtered_df (master : List MasterRow) : List MasterRow :=
  master.filter (fun m =>
    m.treatment == "miraclib" && m.condition == "melanoma" && m.sample_type == "PBMC")

/-- A row of the statistical summary built in the loop of source
lines 222-234. -/
structure StatRow where
  population : String
  p_value : Rfloat
  verdict : String
deriving DecidableEq

/-- The percentage values of the responder group for one population
(source line 223). -/
def yesGroup (filtered : List MasterRow) (cell : String) : List Rfloat :=
  (filtered.filter (fun r => r.population == cell && r.response == "yes")).map
    (fun r => r.percentage)

/-- The percentage values of the non-responder group for one population
(source line 224). -/
def noGroup (filtered : List MasterRow) (cell : String) : List Rfloat :=
  (filtered.filter (fun r => r.population == cell && r.response == "no")).map
    (fun r => r.percentage)

/-- The comparator loop of source lines 219-234, parametric in the
two-sample test function (scipy is an external collaborator): one result
row per distinct population value in first-occurrence order
(pandas unique), with verdict Significant exactly when p_value < 0.05. -/
def stats_results (ttest : List Rfloat → List Rfloat → Rfloat)
    (filtered : List MasterRow) : List StatRow :=
  (dedupF (filtered.map (fun r => r.population))).map (fun cell =>
    let p := ttest (yesGroup filtered cell) (noGroup filtered cell)
    ⟨cell, p, if rltb p (Rfloat.val (1/20)) then "Significant" else "NOT Significant"⟩)

/-- scipy.stats.ttest_ind with equal_var=False, as called on source
line 226, restricted to what the claims need: with fewer than two
observations in either group the sample variance is undefined and scipy
returns a nan p-value (it does not raise and it reports no status); the
well-sized branch is the Welch two-sided p-value, kept parametric since the
t-distribution itself is an external numerical collaborator. -/
def ttest_ind_model (welch : List Rfloat → List Rfloat → Rfloat)
    (a b : List Rfloat) : Rfloat :=
  if a.length < 2 || b.length < 2 then Rfloat.nan else welch a b

/-- The statistical summary computed from the normalized store. -/
def statsOf (welch : List Rfloat → List Rfloat → Rfloat) (db : DB) : List StatRow :=
  stats_results (ttest_ind_model welch) (filtered_df (masterOf db))

/-! ### Lemmas about INSERT and SELECT DISTINCT -/

theorem insertPKRows_ok_eq {β : Type} (tbl col : String) (key : β → String) :
    ∀ (l acc out : List β), insertPKRows tbl col key acc l = .ok out → out = acc ++ l := by
  intro l
  induction l with
  | nil =>
    intro acc out h
    simp only [insertPKRows] at h
    cases h
    simp
  | cons r rs ih =>
    intro acc out h
    simp only [insertPKRows] at h
    by_cases hk : key r ∈ acc.map key
    · simp [hk] at h
    · simp only [hk, if_neg, ite_false] at h
      have := ih (acc ++ [r]) out h
      simpa [List.append_assoc] using this

theorem insertPKRows_ok_nodup {β : Type} (tbl col : String) (key : β → String) :
    ∀ (l acc out : List β), (acc.map key).Nodup →
      insertPKRows tbl col key acc l = .ok out → (out.map key).Nodup := by
  intro l
  induction l with
  | nil =>
    intro acc out hacc h
    simp only [insertPKRows] at h
    cases h
    exact hacc
  | cons r rs ih =>
    intro acc out hacc h
    simp only [insertPKRows] at h
    by_cases hk : key r ∈ acc.map key
    · simp [hk] at h
    · simp only [hk, if_neg, ite_false] at h
      refine ih (acc ++ [r]) out ?_ h
      simp [List.nodup_append, hacc, hk]

theorem insertPKRows_error_of_dup {β : Type} (tbl col : String) (key : β → String) :
    ∀ (l acc : List β), (acc.map key).Nodup → ¬ ((acc ++ l).map key).Nodup →
      insertPKRows tbl col key acc l = .error (.pkViolation tbl col) := by
  intro l
  induction l with
  | nil =>
    intro acc hacc hdup
    simp at hdup
    exact absurd hacc hdup
  | cons r rs ih =>
    intro acc hacc hdup
    by_cases hk : key r ∈ acc.map key
    · simp [insertPKRows, hk]
    · have hstep : (acc ++ r :: rs) = (acc ++ [r]) ++ rs := by simp
      have hacc' : ((acc ++ [r]).map key).Nodup := by
        simp [List.nodup_append, hacc, hk]
      have hdup' : ¬ (((acc ++ [r]) ++ rs).map key).Nodup := by
        rw [← hstep]; exact hdup
      have hp := ih (acc ++ [r]) hacc' hdup'
      simp only [insertPKRows, hk, if_neg, ite_false]
      exact hp

theorem mem_dedupAux {β : Type} [DecidableEq β] :
    ∀ (l seen : List β) (a : β), a ∈ dedupAux seen l ↔ (a ∈ l ∧ a ∉ seen) := by
  intro l
  induction l with
  | nil => simp [dedupAux]
  | cons x xs ih =>
    intro seen a
    by_cases hx : x ∈ seen
    · simp only [dedupAux, hx, if_pos, ite_true, ih, List.mem_cons]
      constructor
      · rintro ⟨h1, h2⟩
        exact ⟨Or.inr h1, h2⟩
      · rintro ⟨h1, h2⟩
        rcases h1 with h1 | h1
        · exact absurd (h1 ▸ hx) h2
        · exact ⟨h1, h2⟩
    · simp only [dedupAux, hx, if_neg, ite_false, List.mem_cons, ih,
        List.mem_append, List.mem_singleton, not_or]
      by_cases hax : a = x
      · subst hax
        tauto
      · tauto

theorem mem_dedupF {β : Type} [DecidableEq β] (l : List β) (a : β) :
    a ∈ dedupF l ↔ a ∈ l := by
  simp [dedupF, mem_dedupAux]

theorem nodup_dedupAux {β : Type} [DecidableEq β] :
    ∀ (l seen : List β), seen.Nodup → (seen ++ dedupAux seen l).Nodup := by
  intro l
  induction l with
  | nil =>
    intro seen hs
    simpa [dedupAux] using hs
  | cons x xs ih =>
    intro seen hs
    by_cases hx : x ∈ seen
    · simpa [dedupAux, hx] using ih seen hs
    · have hs' : (seen ++ [x]).Nodup := by simp [List.nodup_append, hs, hx]
      have := ih (seen ++ [x]) hs'
      simpa [dedupAux, hx, List.append_assoc] using this

theorem nodup_dedupF {β : Type} [DecidableEq β] (l : List β) : (dedupF l).Nodup := by
  simpa using nodup_dedupAux l [] List.nodup_nil

theorem insertSampleRows_ok_eq (sk pk : List String) :
    ∀ (l acc out : List SampleRow),
      insertSampleRows sk pk acc l = .ok out → out = acc ++ l := by
  intro l
  induction l with
  | nil =>
    intro acc out h
    simp only [insertSampleRows] at h
    cases h
    simp
  | cons t ts ih =>
    intro acc out h
    simp only [insertSampleRows] at h
    by_cases h1 : t.sample ∈ acc.map (fun u => u.sample)
    · simp [h1] at h
    · by_cases h2 : t.subject ∈ sk
      · by_cases h3 : t.project ∈ pk
        · simp only [h1, h2, h3, if_neg, if_pos, ite_false, ite_true, not_true,
            not_false_iff] at h
          have := ih (acc ++ [t]) out h
          simpa [List.append_assoc] using this
        · simp [h1, h2, h3] at h
      · simp [h1, h2] at h

theorem insertSampleRows_ok_nodup (sk pk : List String) :
    ∀ (l acc out : List SampleRow), (acc.map (fun u => u.sample)).Nodup →
      insertSampleRows sk pk acc l = .ok out →
      (out.map (fun u => u.sample)).Nodup := by
  intro l
  induction l with
  | nil =>
    intro acc out hacc h
    simp only [insertSampleRows] at h
    cases h
    exact hacc
  | cons t ts ih =>
    intro acc out hacc h
    simp only [insertSampleRows] at h
    by_cases h1 : t.sample ∈ acc.map (fun u => u.sample)
    · simp [h1] at h
    · by_cases h2 : t.subject ∈ sk
      · by_cases h3 : t.project ∈ pk
        · simp only [h1, h2, h3, if_neg, if_pos, ite_false, ite_true, not_true,
            not_false_iff] at h
          refine ih (acc ++ [t]) out ?_ h
          simp [List.nodup_append, hacc, h1]
        · simp [h1, h2, h3] at h
      · simp [h1, h2] at h

theorem insertSampleRows_error_of_dup (sk pk : List String) :
    ∀ (l acc : List SampleRow), (acc.map (fun u => u.sample)).Nodup →
      (∀ t ∈ l, t.subject ∈ sk ∧ t.project ∈ pk) →
      ¬ (((acc ++ l).map (fun u => u.sample)).Nodup) →
      insertSampleRows sk pk acc l = .error (.pkViolation "sample_table" "sample") := by
  intro l
  induction l with
  | nil =>
    intro acc hacc _ hdup
    simp at hdup
    exact absurd hacc hdup
  | cons t ts ih =>
    intro acc hacc hfk hdup
    by_cases h1 : t.sample ∈ acc.map (fun u => u.sample)
    · simp [insertSampleRows, h1]
    · have h2 : t.subject ∈ sk := (hfk t (by simp)).1
      have h3 : t.project ∈ pk := (hfk t (by simp)).2
      have hacc' : ((acc ++ [t]).map (fun u => u.sample)).Nodup := by
        simp [List.nodup_append, hacc, h1]
      have hdup' : ¬ (((acc ++ [t]) ++ ts).map (fun u => u.sample)).Nodup := by
        simpa [List.append_assoc] using hdup
      have hs := ih (acc ++ [t]) hacc' (fun u hu => hfk u (by simp [hu])) hdup'
      simp only [insertSampleRows, h1, h2, h3, if_neg, if_pos, ite_false, ite_true,
        not_true, not_false_iff]
      exact hs

theorem init_database_ok_iff (rows : List RawRow) (db : DB) :
    init_database rows = .ok db ↔
      subject_table rows = .ok db.subject_table ∧
      project_table rows = .ok db.project_table ∧
      sample_table db.subject_table db.project_table rows = .ok db.sample_table := by
  obtain ⟨subsD, projsD, sampsD⟩ := db
  simp only [init_database, bind, Bind.bind, Except.bind, Functor.map, Except.map]
  cases hs : subject_table rows with
  | error e => simp [hs]
  | ok subs =>
    cases hp : project_table rows with
    | error e => simp [hs, hp]
    | ok projs =>
      simp only [hs, hp]
      cases hsam : sample_table subs projs rows with
      | error e =>
        simp only [hsam]
        constructor
        · intro h
          cases h
        · rintro ⟨h1, h2, h3⟩
          cases h1
          cases h2
          rw [hsam] at h3
          cases h3
      | ok samps =>
        simp only [hsam]
        constructor
        · intro h
          cases h
          exact ⟨rfl, rfl, by rw [hsam]⟩
        · rintro ⟨h1, h2, h3⟩
          cases h1
          cases h2
          rw [hsam] at h3
          cases h3
          rfl

/-! ### Lemmas about the identifier rewrite -/

theorem isDigit_toNat {c : Char} (h : c.isDigit = true) :
    48 ≤ c.toNat ∧ c.toNat ≤ 57 := by
  simpa [Char.isDigit] using h

theorem not_space_of_isDigit {c : Char} (h : c.isDigit = true) :
    sqliteIsSpace c = false := by
  by_contra hns
  have hsp : sqliteIsSpace c = true := by
    revert hns
    cases sqliteIsSpace c <;> simp
  simp only [sqliteIsSpace, Bool.or_eq_true, decide_eq_true_eq] at hsp
  rcases hsp with ((((h1 | h1) | h1) | h1) | h1) | h1 <;> subst h1 <;>
    exact absurd h (by decide)

theorem ne_minus_of_isDigit {c : Char} (h : c.isDigit = true) : c ≠ '-' := by
  intro hc
  subst hc
  exact absurd h (by decide)

theorem ne_plus_of_isDigit {c : Char} (h : c.isDigit = true) : c ≠ '+' := by
  intro hc
  subst hc
  exact absurd h (by decide)

theorem digitsToInt_nonneg_aux (ds : List Char) :
    ∀ acc : Int, 0 ≤ acc → (∀ c ∈ ds, c.isDigit = true) →
      0 ≤ ds.foldl (fun a c => a * 10 + digitVal c) acc := by
  induction ds with
  | nil =>
    intro acc hacc _
    simpa using hacc
  | cons d ds ih =>
    intro acc hacc hd
    simp only [List.foldl_cons]
    refine ih (acc * 10 + digitVal d) ?_ (fun c hc => hd c (by simp [hc]))
    have h48 := (isDigit_toNat (hd d (by simp))).1
    have : (0 : Int) ≤ digitVal d := by
      simp only [digitVal]
      omega
    nlinarith

theorem digitsToInt_nonneg {ds : List Char} (h : ds.all Char.isDigit = true) :
    0 ≤ digitsToInt ds :=
  digitsToInt_nonneg_aux ds 0 le_rfl (List.all_eq_true.mp h)

theorem sqliteCastInt_digits {ds : List Char} (hne : ds ≠ [])
    (hd : ds.all Char.isDigit = true) :
    sqliteCastInt (String.mk ds) = digitsToInt ds := by
  obtain ⟨d, rest, rfl⟩ : ∃ d rest, ds = d :: rest := by
    cases ds with
    | nil => exact absurd rfl hne
    | cons d rest => exact ⟨d, rest, rfl⟩
  have hdd : d.isDigit = true := by
    have := List.all_eq_true.mp hd d (by simp)
    exact this
  have hskip : skipSpaces (d :: rest) = d :: rest := by
    simp [skipSpaces, not_space_of_isDigit hdd]
  have htake : takeDigits (d :: rest) = d :: rest :=
    List.takeWhile_eq_self_iff.mpr (List.all_eq_true.mp hd)
  simp only [sqliteCastInt, String.mk, hskip]
  simp [ne_minus_of_isDigit hdd, ne_plus_of_isDigit hdd, htake]

theorem sqliteCastInt_zero_of_no_int {cs : List Char}
    (h : hasLeadingInt cs = false) : sqliteCastInt (String.mk cs) = 0 := by
  simp only [hasLeadingInt] at h
  simp only [sqliteCastInt, String.mk]
  cases hskip : skipSpaces cs with
  | nil => simp
  | cons c cs' =>
    rw [hskip] at h
    by_cases hm : c = '-'
    · simp only [hm, if_pos, ite_true] at h ⊢
      have : takeDigits cs' = [] := by
        cases htd : takeDigits cs' with
        | nil => rfl
        | cons a b => simp [htd] at h
      simp [this, digitsToInt]
    · by_cases hp : c = '+'
      · simp only [hm, hp, if_neg, if_pos, ite_false, ite_true] at h ⊢
        have : takeDigits cs' = [] := by
          cases htd : takeDigits cs' with
          | nil => rfl
          | cons a b => simp [htd] at h
        simp [this, digitsToInt]
      · simp only [hm, hp, if_neg, ite_false] at h ⊢
        have : takeDigits (c :: cs') = [] := by
          simp [takeDigits, List.takeWhile, h]
        simp [this, digitsToInt]

theorem natDigitsAux_digits :
    ∀ (fuel n : Nat), n < fuel → (natDigitsAux fuel n).all Char.isDigit = true := by
  intro fuel
  induction fuel with
  | zero =>
    intro n h
    omega
  | succ fuel ih =>
    intro n hn
    by_cases h10 : n < 10
    · have hc : (Char.ofNat (48 + n)).isDigit = true := by
        interval_cases n <;> decide
      simp [natDigitsAux, h10, hc]
    · have hdiv : n / 10 < fuel := by
        have h1 : n / 10 < n := Nat.div_lt_self (by omega) (by omega)
        omega
      have hmod : (Char.ofNat (48 + n % 10)).isDigit = true := by
        have hm10 : n % 10 < 10 := Nat.mod_lt _ (by omega)
        set m := n % 10 with hm
        interval_cases m <;> decide
      simp [natDigitsAux, h10, List.all_append, ih _ hdiv, hmod]

theorem natDigitsAux_len :
    ∀ (fuel n k : Nat), n < fuel → n < 10 ^ (k + 1) →
      (natDigitsAux fuel n).length ≤ k + 1 := by
  intro fuel
  induction fuel with
  | zero =>
    intro n k h _
    omega
  | succ fuel ih =>
    intro n k hn hk
    by_cases h10 : n < 10
    · simp only [natDigitsAux, h10, if_pos, ite_true, List.length_cons,
        List.length_nil]
      omega
    · cases k with
      | zero =>
        simp at hk
        omega
      | succ k' =>
        have hdiv : n / 10 < fuel := by
          have h1 : n / 10 < n := Nat.div_lt_self (by omega) (by omega)
          omega
        have hk' : n / 10 < 10 ^ (k' + 1) := by
          rw [Nat.div_lt_iff_lt_mul (by omega)]
          calc n < 10 ^ (k' + 1 + 1) := hk
            _ = 10 ^ (k' + 1) * 10 := by ring
        have := ih (n / 10) k' hdiv hk'
        simp only [natDigitsAux, h10, if_neg, ite_false, List.length_append,
          List.length_cons, List.length_nil]
        omega

theorem natDigits_digits (n : Nat) : (natDigits n).all Char.isDigit = true :=
  natDigitsAux_digits (n + 1) n (by omega)

theorem natDigits_len {n : Nat} (h : n < 10000) : (natDigits n).length ≤ 4 := by
  have h4 : n < 10 ^ (3 + 1) := by norm_num; omega
  simpa [natDigits] using natDigitsAux_len (n + 1) n 3 (by omega) h4

theorem printf04d_ofNat (n : Nat) :
    printf04d (n : Int) = String.mk (leftPad '0' 4 (natDigits n)) := by
  have hnn : ¬ ((n : Int) < 0) := Int.not_lt.mpr (Int.natCast_nonneg n)
  simp [printf04d, hnn, Int.natAbs_ofNat]

theorem matchesSbj4_sbj_pad {ds : List Char} (hlen : ds.length ≤ 4)
    (hd : ds.all Char.isDigit = true) :
    matchesSbj4 (String.mk ('s' :: 'b' :: 'j' :: leftPad '0' 4 ds)) = true := by
  have h1 : (leftPad '0' 4 ds).length = 4 := by
    simp only [leftPad, List.length_append, List.length_replicate]
    omega
  have h2 : (leftPad '0' 4 ds).all Char.isDigit = true := by
    simp only [leftPad, List.all_append, hd, Bool.and_true]
    refine List.all_eq_true.mpr (fun x hx => ?_)
    rcases List.mem_replicate.mp hx with ⟨_, rfl⟩
    decide
  simp [matchesSbj4, h1, h2]

theorem rewriteSubject_digits {s : String} {ds : List Char}
    (hdrop : s.data.drop 3 = ds) (hne : ds ≠ []) (hd : ds.all Char.isDigit = true) :
    rewriteSubject s =
      String.mk ('s' :: 'b' :: 'j' :: leftPad '0' 4 (natDigits (digitsToInt ds).toNat)) := by
  have hcast : sqliteCastInt (substr4 s) = digitsToInt ds := by
    rw [substr4, hdrop]
    exact sqliteCastInt_digits hne hd
  have hnn : 0 ≤ digitsToInt ds := digitsToInt_nonneg hd
  have hof : digitsToInt ds = ((digitsToInt ds).toNat : Int) :=
    (Int.toNat_of_nonneg hnn).symm
  rw [rewriteSubject, hcast, hof, printf04d_ofNat]
  rfl

theorem rewriteSubject_matches {s : String} {ds : List Char}
    (hdrop : s.data.drop 3 = ds) (hne : ds ≠ []) (hd : ds.all Char.isDigit = true)
    (hsmall : digitsToInt ds < 10000) :
    matchesSbj4 (rewriteSubject s) = true := by
  rw [rewriteSubject_digits hdrop hne hd]
  refine matchesSbj4_sbj_pad (natDigits_len ?_) (natDigits_digits _)
  omega

theorem rewriteSubject_noInt {s : String}
    (h : hasLeadingInt (s.data.drop 3) = false) :
    rewriteSubject s = "sbj0000" := by
  have hzero : sqliteCastInt (substr4 s) = 0 := by
    rw [substr4]
    exact sqliteCastInt_zero_of_no_int h
  rw [rewriteSubject, hzero]
  rfl

/-! ### Lemmas about the sort by sample -/

theorem leChars_total : ∀ a b : List Char, leChars a b = true ∨ leChars b a = true := by
  intro a
  induction a with
  | nil =>
    intro b
    left
    rfl
  | cons x xs ih =>
    intro b
    cases b with
    | nil =>
      right
      rfl
    | cons y ys =>
      by_cases h1 : x.toNat < y.toNat
      · left
        simp [leChars, h1]
      · by_cases h2 : y.toNat < x.toNat
        · right
          simp [leChars, h1, h2]
        · rcases ih ys with h | h
          · left
            simp [leChars, h1, h2, h]
          · right
            simp [leChars, h1, h2, h]

theorem leChars_trans :
    ∀ a b c : List Char, leChars a b = true → leChars b c = true →
      leChars a c = true := by
  intro a
  induction a with
  | nil =>
    intro b c _ _
    rfl
  | cons x xs ih =>
    intro b c hab hbc
    cases b with
    | nil => simp [leChars] at hab
    | cons y ys =>
      cases c with
      | nil => simp [leChars] at hbc
      | cons z zs =>
        by_cases h1 : x.toNat < y.toNat
        · by_cases h2 : y.toNat < z.toNat
          · have hxz : x.toNat < z.toNat := Nat.lt_trans h1 h2
            simp [leChars, hxz]
          · by_cases h3 : z.toNat < y.toNat
            · simp [leChars, h2, h3] at hbc
            · have hxz : x.toNat < z.toNat := by omega
              simp [leChars, hxz]
        · by_cases h1' : y.toNat < x.toNat
          · simp [leChars, h1, h1'] at hab
          · by_cases h2 : y.toNat < z.toNat
            · have hxz : x.toNat < z.toNat := by omega
              simp [leChars, hxz]
            · by_cases h3 : z.toNat < y.toNat
              · simp [leChars, h2, h3] at hbc
              · have hxz : ¬ x.toNat < z.toNat := by omega
                have hzx : ¬ z.toNat < x.toNat := by omega
                have hab' : leChars xs ys = true := by
                  simpa [leChars, h1, h1'] using hab
                have hbc' : leChars ys zs = true := by
                  simpa [leChars, h2, h3] using hbc
                simp [leChars, hxz, hzx, ih ys zs hab' hbc']

theorem leSample_total (a b : MeltRow) : leSample a b = true ∨ leSample b a = true :=
  leChars_total a.sample.data b.sample.data

theorem leSample_trans {a b c : MeltRow} (h1 : leSample a b = true)
    (h2 : leSample b c = true) : leSample a c = true :=
  leChars_trans a.sample.data b.sample.data c.sample.data h1 h2

theorem mem_insertSorted (x z : MeltRow) :
    ∀ l, z ∈ insertSorted x l ↔ z = x ∨ z ∈ l := by
  intro l
  induction l with
  | nil => simp [insertSorted]
  | cons y ys ih =>
    by_cases h : leSample x y = true
    · simp only [insertSorted, if_pos h, List.mem_cons]
    · simp only [insertSorted, if_neg h, List.mem_cons, ih]
      tauto

theorem insertSorted_perm (x : MeltRow) :
    ∀ l, (insertSorted x l).Perm (x :: l) := by
  intro l
  induction l with
  | nil => simp [insertSorted]
  | cons y ys ih =>
    by_cases h : leSample x y = true
    · simp [insertSorted, if_pos h]
    · simp only [insertSorted, if_neg h]
      exact (List.Perm.cons y ih).trans (List.Perm.swap x y ys)

theorem sortMelt_perm : ∀ l, (sortMelt l).Perm l := by
  intro l
  induction l with
  | nil => simp [sortMelt]
  | cons x xs ih =>
    show (insertSorted x (sortMelt xs)).Perm (x :: xs)
    exact (insertSorted_perm x (sortMelt xs)).trans (List.Perm.cons x ih)

theorem pairwise_insertSorted (x : MeltRow) :
    ∀ l, List.Pairwise (fun a b => leSample a b = true) l →
      List.Pairwise (fun a b => leSample a b = true) (insertSorted x l) := by
  intro l
  induction l with
  | nil =>
    intro _
    simp [insertSorted]
  | cons y ys ih =>
    intro hp
    rcases List.pairwise_cons.mp hp with ⟨hy, hys⟩
    by_cases h : leSample x y
    · simp only [insertSorted, h, ite_true, if_pos]
      refine List.pairwise_cons.mpr ⟨?_, hp⟩
      intro z hz
      rcases List.mem_cons.mp hz with rfl | hz
      · exact h
      · exact leSample_trans h (hy z hz)
    · have hyx : leSample y x = true := by
        rcases leSample_total x y with h' | h'
        · exact absurd h' h
        · exact h'
      simp only [insertSorted, h, ite_false, if_neg]
      refine List.pairwise_cons.mpr ⟨?_, ih hys⟩
      intro z hz
      rcases (mem_insertSorted x z ys).mp hz with rfl | hz
      · exact hyx
      · exact hy z hz

theorem sortMelt_sorted : ∀ l, SortedBySample (sortMelt l) := by
  intro l
  induction l with
  | nil => simp [sortMelt, SortedBySample]
  | cons x xs ih => exact pairwise_insertSorted x (sortMelt xs) ih

theorem pandasSortOutput_sortMelt (l : List MeltRow) :
    pandasSortOutput l (sortMelt l) :=
  ⟨sortMelt_perm l, sortMelt_sorted l⟩

/-! ### Lemmas about the percentage column -/

/-- The rational carried by a float value, defaulting to 0 on the
non-finite cases; used only to reconstruct lists of finite values. -/
def unval : Rfloat → ℚ
  | .val q => q
  | _ => 0

theorem fdiv_zero_not_val (c : ℚ) :
    fdiv c 0 = Rfloat.nan ∨ fdiv c 0 = Rfloat.inf ∨ fdiv c 0 = Rfloat.ninf := by
  simp only [fdiv, if_pos rfl]
  by_cases h : c = 0
  · simp [h]
  · by_cases h2 : 0 < c <;> simp [h, h2]

theorem fdiv_ne_zero (c T : ℚ) (hT : T ≠ 0) : fdiv c T = Rfloat.val (c / T) := by
  simp [fdiv, hT]

theorem summary_table_mem {samps : List SampleRow} {r : SummaryRow}
    (hr : r ∈ summary_table samps) :
    ∃ m : MeltRow, m ∈ df_melt samps ∧ r = toSummaryRow (addPercentage m) := by
  simp only [summary_table, df_total_melt, List.map_map, List.mem_map] at hr
  obtain ⟨m, hm, rfl⟩ := hr
  exact ⟨m, (sortMelt_perm (df_melt samps)).mem_iff.mp hm, rfl⟩

theorem summary_row_percentage {samps : List SampleRow} {r : SummaryRow}
    (hr : r ∈ summary_table samps) :
    r.percentage = fdiv r.count r.total_count := by
  obtain ⟨m, _, rfl⟩ := summary_table_mem hr
  rfl

theorem filter_key_eq_single {γ : Type} (key : γ → String) :
    ∀ (l : List γ), (l.map key).Nodup → ∀ x ∈ l,
      l.filter (fun y => key y == key x) = [x] := by
  intro l
  induction l with
  | nil =>
    intro _ x hx
    cases hx
  | cons a as ih =>
    intro hnd x hx
    simp only [List.map_cons, List.nodup_cons] at hnd
    rcases List.mem_cons.mp hx with rfl | hx'
    · have hnil : as.filter (fun y => key y == key x) = [] := by
        refine List.filter_eq_nil_iff.mpr (fun y hy => ?_)
        simp only [beq_iff_eq]
        intro he
        exact hnd.1 (he ▸ List.mem_map_of_mem key hy)
      rw [List.filter_cons, hnil]
      simp
    · have hne : ¬ ((key a == key x) = true) := by
        simp only [beq_iff_eq]
        intro he
        exact hnd.1 (he ▸ List.mem_map_of_mem key hx')
      rw [List.filter_cons]
      simp only [hne, ite_false, if_neg]
      exact ih hnd.2 x hx'

theorem meltOne_filter (nmf : String × (SampleRow → ℚ)) (samps : List SampleRow)
    (t : SampleRow) (h : samps.filter (fun u => u.sample == t.sample) = [t]) :
    (meltOne nmf samps).filter (fun m => m.sample == t.sample) =
      [⟨t.sample, t.subject, t.project, t.time_from_treatment_start,
        totalCount t, nmf.1, nmf.2 t⟩] := by
  simp only [meltOne, List.filter_map]
  have : ((fun m : MeltRow => m.sample == t.sample) ∘
      (fun u : SampleRow => (⟨u.sample, u.subject, u.project,
        u.time_from_treatment_start, totalCount u, nmf.1, nmf.2 u⟩ : MeltRow))) =
      (fun u : SampleRow => u.sample == t.sample) := rfl
  rw [this, h]
  rfl

theorem df_melt_filter_sample {samps : List SampleRow}
    (hnd : (samps.map (fun t => t.sample)).Nodup) (t : SampleRow) (ht : t ∈ samps) :
    (df_melt samps).filter (fun m => m.sample == t.sample) =
      melt_cols.map (fun nmf =>
        (⟨t.sample, t.subject, t.project, t.time_from_treatment_start,
          totalCount t, nmf.1, nmf.2 t⟩ : MeltRow)) := by
  have hsingle : samps.filter (fun u => u.sample == t.sample) = [t] :=
    filter_key_eq_single (fun u => u.sample) samps hnd t ht
  simp only [df_melt, melt_cols, List.flatMap_cons, List.flatMap_nil,
    List.filter_append, List.append_nil, List.map_cons, List.map_nil]
  rw [meltOne_filter _ _ _ hsingle, meltOne_filter _ _ _ hsingle,
    meltOne_filter _ _ _ hsingle, meltOne_filter _ _ _ hsingle,
    meltOne_filter _ _ _ hsingle]
  rfl

theorem list_perm_map_val {l : List Rfloat} {qs0 : List ℚ}
    (hp : l.Perm (qs0.map Rfloat.val)) :
    ∃ qs : List ℚ, l = qs.map Rfloat.val ∧ qs.Perm qs0 := by
  have hall : ∀ x ∈ l, Rfloat.val (unval x) = x := by
    intro x hx
    obtain ⟨q, _, rfl⟩ := List.mem_map.mp (hp.mem_iff.mp hx)
    rfl
  refine ⟨l.map unval, ?_, ?_⟩
  · rw [List.map_map]
    exact ((List.map_congr_left hall).trans l.map_id).symm
  · have h1 := hp.map unval
    rw [List.map_map] at h1
    have h2 : qs0.map (unval ∘ Rfloat.val) = qs0 := by
      refine (List.map_congr_left (fun a _ => rfl)).trans qs0.map_id
    rwa [h2] at h1

/-! ### Lemmas about the inner joins -/

/-- The melted-frame columns of a joined row. -/
def projFreq (m : MasterRow) : FreqRow :=
  ⟨m.sample, m.subject, m.project, m.time_from_treatment_start, m.total_count,
    m.population, m.count, m.percentage⟩

/-- Whether a melted row finds a match in both metadata tables, i.e.
survives the two inner joins. -/
def presentB (subs : List SubjectRow) (projs : List ProjectRow) (f : FreqRow) : Bool :=
  subs.any (fun s => s.subject == f.subject) && projs.any (fun p => p.project == f.project)

theorem projFreq_mkMaster (f : FreqRow) (s : SubjectRow) (p : ProjectRow) :
    projFreq (mkMaster f s p) = f := by
  cases f
  rfl

theorem filter_key_val {γ : Type} (key : γ → String) :
    ∀ (l : List γ), (l.map key).Nodup → ∀ k : String,
      (l.filter (fun y => key y == k) = [] ∧ l.any (fun y => key y == k) = false) ∨
      (∃ x, l.filter (fun y => key y == k) = [x] ∧ key x = k ∧
        l.any (fun y => key y == k) = true) := by
  intro l
  induction l with
  | nil =>
    intro _ k
    left
    exact ⟨rfl, rfl⟩
  | cons a as ih =>
    intro hnd k
    simp only [List.map_cons, List.nodup_cons] at hnd
    by_cases hk : key a = k
    · right
      refine ⟨a, ?_, hk, by simp [hk]⟩
      have hnil : as.filter (fun y => key y == k) = [] := by
        refine List.filter_eq_nil_iff.mpr (fun y hy => ?_)
        simp only [beq_iff_eq]
        intro he
        exact hnd.1 ((hk.symm ▸ he : key y = key a) ▸ List.mem_map_of_mem key hy)
      rw [List.filter_cons, hnil]
      simp [hk]
    · have hne : ¬ ((key a == k) = true) := by
        simp only [beq_iff_eq]
        exact hk
      rcases ih hnd.2 k with ⟨h1, h2⟩ | ⟨x, h1, h2, h3⟩
      · left
        constructor
        · rw [List.filter_cons]
          simp only [hne, ite_false, if_neg]
          exact h1
        · simp [List.any_cons, hne, h2]
      · right
        refine ⟨x, ?_, h2, by simp [List.any_cons, h3]⟩
        rw [List.filter_cons]
        simp only [hne, ite_false, if_neg]
        exact h1

theorem df_master_cons (f : FreqRow) (fs : List FreqRow) (subs : List SubjectRow)
    (projs : List ProjectRow) :
    df_master (f :: fs) subs projs =
      ((subs.filter (fun s => s.subject == f.subject)).map (fun s => (f, s))).flatMap
        (fun fp => (projs.filter (fun p => p.project == fp.1.project)).map
          (fun p => mkMaster fp.1 fp.2 p)) ++ df_master fs subs projs := by
  simp [df_master, List.flatMap_cons, List.flatMap_append]

theorem df_master_eq_filter :
    ∀ (freq : List FreqRow) (subs : List SubjectRow) (projs : List ProjectRow),
      (subs.map (fun s => s.subject)).Nodup →
      (projs.map (fun p => p.project)).Nodup →
      (df_master freq subs projs).map projFreq = freq.filter (presentB subs projs) := by
  intro freq subs projs hs hp
  induction freq with
  | nil => rfl
  | cons f fs ih =>
    rw [df_master_cons, List.map_append, ih, List.filter_cons]
    rcases filter_key_val (fun s => s.subject) subs hs f.subject with
      ⟨hf1, hf2⟩ | ⟨s, hf1, _, hf2⟩
    · have hpres : presentB subs projs f = false := by
        simp [presentB, hf2]
      simp [hf1, hpres]
    · rcases filter_key_val (fun p => p.project) projs hp f.project with
        ⟨hg1, hg2⟩ | ⟨p, hg1, _, hg2⟩
      · have hpres : presentB subs projs f = false := by
          simp [presentB, hg2]
        simp [hf1, hg1, hpres]
      · have hpres : presentB subs projs f = true := by
          simp [presentB, hf2, hg2]
        simp [hf1, hg1, hpres, projFreq_mkMaster]

theorem length_filter_split {γ : Type} (p : γ → Bool) :
    ∀ l : List γ, l.length = (l.filter p).length + (l.filter (fun a => !(p a))).length := by
  intro l
  induction l with
  | nil => rfl
  | cons a as ih =>
    by_cases h : p a = true <;>
      simp [List.filter_cons, h, ih] <;> omega

theorem db_subject_nodup {rows : List RawRow} {db : DB}
    (h : init_database rows = .ok db) :
    (db.subject_table.map (fun s => s.subject)).Nodup := by
  obtain ⟨h1, _, _⟩ := (init_database_ok_iff rows db).mp h
  exact insertPKRows_ok_nodup _ _ _ _ [] _ (by simp) h1

theorem db_project_nodup {rows : List RawRow} {db : DB}
    (h : init_database rows = .ok db) :
    (db.project_table.map (fun p => p.project)).Nodup := by
  obtain ⟨_, h2, _⟩ := (init_database_ok_iff rows db).mp h
  exact insertPKRows_ok_nodup _ _ _ _ [] _ (by simp) h2

theorem db_sample_nodup {rows : List RawRow} {db : DB}
    (h : init_database rows = .ok db) :
    (db.sample_table.map (fun t => t.sample)).Nodup := by
  obtain ⟨_, _, h3⟩ := (init_database_ok_iff rows db).mp h
  exact insertSampleRows_ok_nodup _ _ _ [] _ (by simp) h3

theorem db_subject_table_eq {rows : List RawRow} {db : DB}
    (h : init_database rows = .ok db) :
    db.subject_table = dedupF (rows.map toSubjectRow) := by
  obtain ⟨h1, _, _⟩ := (init_database_ok_iff rows db).mp h
  simpa using insertPKRows_ok_eq _ _ _ _ [] _ h1

theorem db_project_table_eq {rows : List RawRow} {db : DB}
    (h : init_database rows = .ok db) :
    db.project_table = dedupF (rows.map (fun r => ProjectRow.mk r.project r.sample_type)) := by
  obtain ⟨_, h2, _⟩ := (init_database_ok_iff rows db).mp h
  simpa using insertPKRows_ok_eq _ _ _ _ [] _ h2

theorem db_sample_table_eq {rows : List RawRow} {db : DB}
    (h : init_database rows = .ok db) :
    db.sample_table = rows.map toSampleRow := by
  obtain ⟨_, _, h3⟩ := (init_database_ok_iff rows db).mp h
  simpa using insertSampleRows_ok_eq _ _ _ [] _ h3

/-! ### Emission lemmas and the percentage-sum lemma -/

theorem subject_emitted {rows : List RawRow} {db : DB}
    (h : init_database rows = .ok db) {r : RawRow} (hr : r ∈ rows) :
    toSubjectRow r ∈ db.subject_table := by
  rw [db_subject_table_eq h]
  exact (mem_dedupF _ _).mpr (List.mem_map_of_mem toSubjectRow hr)

theorem sample_emitted {rows : List RawRow} {db : DB}
    (h : init_database rows = .ok db) {r : RawRow} (hr : r ∈ rows) :
    toSampleRow r ∈ db.sample_table := by
  rw [db_sample_table_eq h]
  exact List.mem_map_of_mem toSampleRow hr

theorem rltb_nan_left (x : Rfloat) : rltb Rfloat.nan x = false := by
  cases x <;> rfl

theorem stats_results_row (ttest : List Rfloat → List Rfloat → Rfloat)
    (filtered : List MasterRow) (cell : String)
    (hc : cell ∈ filtered.map (fun r => r.population)) :
    (⟨cell, ttest (yesGroup filtered cell) (noGroup filtered cell),
      if rltb (ttest (yesGroup filtered cell) (noGroup filtered cell))
          (Rfloat.val (1/20)) then "Significant" else "NOT Significant"⟩ : StatRow) ∈
      stats_results ttest filtered :=
  List.mem_map_of_mem _ ((mem_dedupF _ _).mpr hc)

theorem summary_filter_perm (samps : List SampleRow) (k : String) :
    (((summary_table samps).filter (fun r => r.sample == k)).map
        (fun r => r.percentage)).Perm
      (((df_melt samps).filter (fun m => m.sample == k)).map
        (fun m => fdiv m.count m.total_count)) := by
  unfold summary_table df_total_melt
  rw [List.map_map, List.filter_map, List.map_map]
  exact ((sortMelt_perm (df_melt samps)).filter _).map _

theorem summary_percentages_sum {rows : List RawRow} {db : DB} {t : SampleRow}
    (h : init_database rows = .ok db) (ht : t ∈ db.sample_table)
    (hT : totalCount t ≠ 0) :
    ∃ qs : List ℚ,
      ((summaryOf db).filter (fun r => r.sample == t.sample)).map
        (fun r => r.percentage) = qs.map Rfloat.val ∧ qs.sum = 1 := by
  have hnd := db_sample_nodup h
  have hconc : ((df_melt db.sample_table).filter (fun m => m.sample == t.sample)).map
      (fun m => fdiv m.count m.total_count) =
      [t.b_cell / totalCount t, t.cd8_t_cell / totalCount t,
       t.cd4_t_cell / totalCount t, t.nk_cell / totalCount t,
       t.monocyte / totalCount t].map Rfloat.val := by
    rw [df_melt_filter_sample hnd t ht]
    simp [melt_cols, fdiv_ne_zero _ _ hT]
  have hperm := summary_filter_perm db.sample_table t.sample
  rw [hconc] at hperm
  obtain ⟨qs, hqs, hqp⟩ := list_perm_map_val hperm
  refine ⟨qs, hqs, ?_⟩
  rw [hqp.sum_eq]
  have hsum : [t.b_cell / totalCount t, t.cd8_t_cell / totalCount t,
      t.cd4_t_cell / totalCount t, t.nk_cell / totalCount t,
      t.monocyte / totalCount t].sum =
      (t.b_cell + t.cd8_t_cell + t.cd4_t_cell + t.nk_cell + t.monocyte) /
        totalCount t := by
    simp only [List.sum_cons, List.sum_nil]
    ring
  rw [hsum]
  show totalCount t / totalCount t = 1
  exact div_self hT

/-! ### Decidability instances for the sort contract -/

instance (l : List MeltRow) : Decidable (SortedBySample l) :=
  decidable_of_iff (List.Pairwise (fun a b => leSample a b = true) l) Iff.rfl

instance (l out : List MeltRow) : Decidable (pandasSortOutput l out) :=
  decidable_of_iff (out.Perm l ∧ SortedBySample out) Iff.rfl

/-! ### Concrete inputs used by the witnesses and counterexamples -/

/-- A raw row whose five counts are all zero (total_count = 0). -/
def rawC1x : RawRow :=
  ⟨"s1", "sub1", "p1", "melanoma", 50, "F", "miraclib", "yes", "PBMC", some 0,
    0, 0, 0, 0, 0⟩

/-- Another all-zero-counts raw row, for the witness of the amended C1. -/
def rawC1w : RawRow :=
  ⟨"z1", "sub2", "p2", "melanoma", 61, "M", "miraclib", "no", "PBMC", some 0,
    0, 0, 0, 0, 0⟩

/-- The store produced by normalizing [rawC1w]. -/
def dbC1w : DB :=
  ⟨[toSubjectRow rawC1w], [⟨"p2", "PBMC"⟩], [toSampleRow rawC1w]⟩

/-- A raw row whose subject identifier has no trailing integer. -/
def rawC2x : RawRow :=
  ⟨"c2s1", "subx", "p1", "melanoma", 50, "F", "miraclib", "yes", "PBMC", some 0,
    1, 2, 3, 4, 5⟩

/-- Another raw row with a digitless subject identifier, for the C2 witness. -/
def rawC2w : RawRow :=
  ⟨"c2s2", "suby", "p1", "melanoma", 52, "M", "miraclib", "no", "PBMC", some 0,
    1, 2, 3, 4, 5⟩

/-- The store produced by normalizing [rawC2w]. -/
def dbC2w : DB :=
  ⟨[toSubjectRow rawC2w], [⟨"p1", "PBMC"⟩], [toSampleRow rawC2w]⟩

/-- A raw row whose subject has the five-digit trailing integer 12345. -/
def rawC3x : RawRow :=
  ⟨"c3s1", "sub12345", "p1", "melanoma", 50, "F", "miraclib", "yes", "PBMC",
    some 0, 1, 2, 3, 4, 5⟩

/-- A raw row with subject sub3, the example of the claim. -/
def rawC3w : RawRow :=
  ⟨"c3s2", "sub3", "p1", "melanoma", 50, "F", "miraclib", "yes", "PBMC",
    some 0, 1, 2, 3, 4, 5⟩

/-- The store produced by normalizing [rawC3w]. -/
def dbC3w : DB :=
  ⟨[toSubjectRow rawC3w], [⟨"p1", "PBMC"⟩], [toSampleRow rawC3w]⟩

/-- A raw row with subject sub7, the second example of the claim. -/
def rawC3w7 : RawRow :=
  ⟨"c3s3", "sub7", "p1", "melanoma", 50, "F", "miraclib", "yes", "PBMC",
    some 0, 1, 2, 3, 4, 5⟩

/-- The store produced by normalizing [rawC3w7]. -/
def dbC3w7 : DB :=
  ⟨[toSubjectRow rawC3w7], [⟨"p1", "PBMC"⟩], [toSampleRow rawC3w7]⟩

/-! ### Claim C1 -/

/-- C1, counterexample: on a sample row whose total_count is 0 the pipeline
raises no error at all: initialize_database succeeds, the Reshaper emits the
five long rows with percentage = NaN (0.0/0.0 in float arithmetic), and the
NaN percentages propagate through the join and the cohort filter into the
comparison-stage input, refuting the claim that an EmptySampleError is
surfaced and that no NaN is produced or propagated. -/
theorem C1_counterexample :
    (init_database [rawC1x]).map (fun db =>
        (summaryOf db).map (fun r => (r.sample, r.total_count, r.percentage))) =
      .ok [("s1", 0, Rfloat.nan), ("s1", 0, Rfloat.nan), ("s1", 0, Rfloat.nan),
           ("s1", 0, Rfloat.nan), ("s1", 0, Rfloat.nan)] ∧
    (init_database [rawC1x]).map (fun db =>
        (filtered_df (masterOf db)).map (fun m => m.percentage)) =
      .ok [Rfloat.nan, Rfloat.nan, Rfloat.nan, Rfloat.nan, Rfloat.nan] := by
  with_unfolding_all decide

/-- C1 (amended): for every sample row with total_count = 0 the Reshaper
raises no error; it emits its five long rows, and each such row carries a
non-finite percentage (NaN for a zero count, a signed infinity for a
nonzero count), which then propagates unflagged to the later stages. -/
theorem C1_zero_total_gives_nan :
    ∀ (rows : List RawRow) (db : DB), init_database rows = .ok db →
      ∀ r ∈ summaryOf db, r.total_count = 0 →
        r.percentage = Rfloat.nan ∨ r.percentage = Rfloat.inf ∨
          r.percentage = Rfloat.ninf := by
  intro rows db _ r hr h0
  have hr' : r ∈ summary_table db.sample_table := hr
  have hp : r.percentage = fdiv r.count r.total_count :=
    summary_row_percentage hr'
  rw [hp, h0]
  exact fdiv_zero_not_val r.count

/-- C1, witness: the amended theorem applied to the concrete store built
from rawC1w and the first of its five summary rows. -/
theorem C1_zero_total_gives_nan_witness :
    (⟨"z1", 0, "b_cell", 0, Rfloat.nan⟩ : SummaryRow).percentage = Rfloat.nan ∨
    (⟨"z1", 0, "b_cell", 0, Rfloat.nan⟩ : SummaryRow).percentage = Rfloat.inf ∨
    (⟨"z1", 0, "b_cell", 0, Rfloat.nan⟩ : SummaryRow).percentage = Rfloat.ninf :=
  C1_zero_total_gives_nan [rawC1w] dbC1w (by with_unfolding_all decide)
    ⟨"z1", 0, "b_cell", 0, Rfloat.nan⟩ (by with_unfolding_all decide)
    (by with_unfolding_all decide)

/-! ### Claim C2 -/

/-- C2, counterexample: the raw subject subx has no parseable trailing
integer, yet normalization does not fail: SQLite CAST maps the digitless
remainder to 0, and the Normalizer emits the rewritten subject_id sbj0000
in both the Subject and Sample relations, refuting the claim that such a
row aborts normalization with MalformedIdentifier and emits nothing. -/
theorem C2_counterexample :
    (init_database [rawC2x]).map (fun db =>
        db.sample_table.map (fun u => (u.sample, u.subject))) =
      .ok [("c2s1", "sbj0000")] ∧
    (init_database [rawC2x]).map (fun db =>
        db.subject_table.map (fun u => u.subject)) =
      .ok ["sbj0000"] := by
  with_unfolding_all decide

/-- C2 (amended): a raw subject identifier with no parseable trailing
integer does not abort normalization: every raw row (malformed identifier
or not) is emitted into the Sample relation with its rewritten subject_id,
and whenever the characters after the first three contain no leading
integer the rewritten identifier is the literal sbj0000 (SQLite CAST of a
digitless string is 0). -/
theorem C2_no_trailing_int_emits :
    ∀ (rows : List RawRow) (db : DB), init_database rows = .ok db →
      (∀ r ∈ rows, toSampleRow r ∈ db.sample_table ∧
        (toSampleRow r).subject = rewriteSubject r.subject) ∧
      (∀ s : String, hasLeadingInt (s.data.drop 3) = false →
        rewriteSubject s = "sbj0000") := by
  intro rows db h
  refine ⟨fun r hr => ⟨sample_emitted h hr, rfl⟩, fun s hs => rewriteSubject_noInt hs⟩

/-- C2, witness: the amended theorem applied to the concrete store built
from rawC2w, whose subject suby has no digits. -/
theorem C2_no_trailing_int_emits_witness :
    (toSampleRow rawC2w ∈ dbC2w.sample_table ∧
      (toSampleRow rawC2w).subject = rewriteSubject rawC2w.subject) ∧
    rewriteSubject "suby" = "sbj0000" := by
  have H := C2_no_trailing_int_emits [rawC2w] dbC2w (by with_unfolding_all decide)
  exact ⟨H.1 rawC2w (by simp), H.2 "suby" (by with_unfolding_all decide)⟩

/-! ### Claim C3 -/

/-- C3, counterexample: the raw subject sub12345 has the parseable trailing
integer 12345, but the emitted subject_id is sbj12345, which does not match
the anchored pattern sbj followed by exactly four digits: PRINTF %04d pads
to a minimum width of four and does not truncate larger numbers.  This
refutes the universal claim for rows with a parseable trailing integer. -/
theorem C3_counterexample :
    (init_database [rawC3x]).map (fun db =>
        db.subject_table.map (fun u => u.subject)) = .ok ["sbj12345"] ∧
    (init_database [rawC3x]).map (fun db =>
        db.sample_table.map (fun u => u.subject)) = .ok ["sbj12345"] ∧
    matchesSbj4 "sbj12345" = false := by
  with_unfolding_all decide

/-- C3 (amended): for raw identifiers consisting of any three characters
followed by decimal digits whose value is below 10000, the emitted
subject_id in both the Subject and Sample relations is sbj followed by the
trailing number zero-padded to 4 digits, and it matches the anchored
pattern; in particular sub3 rewrites to sbj0003 and sub7 to sbj0007. -/
theorem C3_subject_id_format :
    ∀ (rows : List RawRow) (db : DB), init_database rows = .ok db →
      ∀ r ∈ rows, ∀ ds : List Char, r.subject.data.drop 3 = ds → ds ≠ [] →
        ds.all Char.isDigit = true → digitsToInt ds < 10000 →
        toSubjectRow r ∈ db.subject_table ∧ toSampleRow r ∈ db.sample_table ∧
        rewriteSubject r.subject =
          String.mk ('s' :: 'b' :: 'j' ::
            leftPad '0' 4 (natDigits (digitsToInt ds).toNat)) ∧
        matchesSbj4 (rewriteSubject r.subject) = true := by
  intro rows db h r hr ds hdrop hne hdig hsmall
  exact ⟨subject_emitted h hr, sample_emitted h hr,
    rewriteSubject_digits hdrop hne hdig,
    rewriteSubject_matches hdrop hne hdig hsmall⟩

/-- C3, witness: the amended theorem applied to the stores built from the
two example rows of the claim, sub3 and sub7; the padded forms evaluate to
the literals sbj0003 and sbj0007. -/
theorem C3_subject_id_format_witness :
    rewriteSubject "sub3" = "sbj0003" ∧ matchesSbj4 "sbj0003" = true ∧
    rewriteSubject "sub7" = "sbj0007" ∧ matchesSbj4 "sbj0007" = true := by
  have h3 := C3_subject_id_format [rawC3w] dbC3w (by with_unfolding_all decide)
    rawC3w (by simp) ['3'] (by with_unfolding_all decide)
    (by with_unfolding_all decide) (by with_unfolding_all decide)
    (by with_unfolding_all decide)
  have h7 := C3_subject_id_format [rawC3w7] dbC3w7 (by with_unfolding_all decide)
    rawC3w7 (by simp) ['7'] (by with_unfolding_all decide)
    (by with_unfolding_all decide) (by with_unfolding_all decide)
    (by with_unfolding_all decide)
  refine ⟨?_, by with_unfolding_all decide, ?_, by with_unfolding_all decide⟩
  · rw [show ("sub3" : String) = rawC3w.subject from rfl, h3.2.2.1]
    with_unfolding_all decide
  · rw [show ("sub7" : String) = rawC3w7.subject from rfl, h7.2.2.1]
    with_unfolding_all decide

/-! ### Claim C4 -/

/-- A responder raw row of the miraclib/melanoma/PBMC cohort. -/
def rawC4a : RawRow :=
  ⟨"c4s1", "sub41", "p4", "melanoma", 50, "F", "miraclib", "yes", "PBMC",
    some 0, 10, 20, 30, 40, 0⟩

/-- A non-responder raw row of the same cohort: with one sample on each
side, every population has response groups of size one. -/
def rawC4b : RawRow :=
  ⟨"c4s2", "sub42", "p4", "melanoma", 61, "M", "miraclib", "no", "PBMC",
    some 0, 5, 5, 5, 5, 5⟩

/-- A single joined cohort row, for the witness of the amended C4. -/
def mrowC4 : MasterRow :=
  ⟨"c4s3", "sbj0001", "p4", some 0, 100, "b_cell", 10, Rfloat.val (1/10),
    "melanoma", 50, "F", "miraclib", "yes", "PBMC"⟩

/-- C4, counterexample: on a cohort with exactly one responder and one
non-responder sample every population has both groups of size 1 (below 2),
yet the comparator does not report any insufficient_data status: it calls
the t-test anyway, scipy returns a NaN p-value, and each population is
reported with the numeric placeholder p_value = NaN and verdict
NOT Significant (NaN < 0.05 is false), refuting the claim that the test is
not attempted and that an explicit insufficient_data status is emitted. -/
theorem C4_counterexample :
    (init_database [rawC4a, rawC4b]).map
        (fun db => statsOf (fun _ _ => Rfloat.val 0) db) =
      .ok [⟨"b_cell", Rfloat.nan, "NOT Significant"⟩,
           ⟨"cd8_t_cell", Rfloat.nan, "NOT Significant"⟩,
           ⟨"cd4_t_cell", Rfloat.nan, "NOT Significant"⟩,
           ⟨"nk_cell", Rfloat.nan, "NOT Significant"⟩,
           ⟨"monocyte", Rfloat.nan, "NOT Significant"⟩] := by
  with_unfolding_all decide

/-- C4 (amended): for every population present in the filtered cohort whose
responder or non-responder group has fewer than two observations, the
comparator still attempts the t-test (the scipy call is unconditional);
scipy returns NaN for the undersized input, and the loop appends a result
row for that population with p_value = NaN and verdict NOT Significant —
there is no insufficient_data status and no row is omitted or crashed on.
The well-sized branch of the test stays parametric in welch. -/
theorem C4_small_group_nan :
    ∀ (welch : List Rfloat → List Rfloat → Rfloat) (filtered : List MasterRow)
      (cell : String), cell ∈ filtered.map (fun r => r.population) →
      ((yesGroup filtered cell).length < 2 ∨ (noGroup filtered cell).length < 2) →
      (⟨cell, Rfloat.nan, "NOT Significant"⟩ : StatRow) ∈
        stats_results (ttest_ind_model welch) filtered := by
  intro welch filtered cell hc hsmall
  have hp : ttest_ind_model welch (yesGroup filtered cell) (noGroup filtered cell) =
      Rfloat.nan := by
    unfold ttest_ind_model
    rcases hsmall with h | h
    · simp [h]
    · simp [h]
  have hmem := stats_results_row (ttest_ind_model welch) filtered cell hc
  rw [hp] at hmem
  simpa [rltb_nan_left] using hmem

/-- C4, witness: the amended theorem applied to the one-row cohort mrowC4,
whose responder group for b_cell has size 1. -/
theorem C4_small_group_nan_witness :
    (⟨"b_cell", Rfloat.nan, "NOT Significant"⟩ : StatRow) ∈
      stats_results (ttest_ind_model (fun _ _ => Rfloat.val 0)) [mrowC4] :=
  C4_small_group_nan (fun _ _ => Rfloat.val 0) [mrowC4] "b_cell"
    (by with_unfolding_all decide) (Or.inl (by with_unfolding_all decide))

/-! ### Claim C5 -/

/-- A raw row with nonzero total count 100, for the witness of C5. -/
def rawC5w : RawRow :=
  ⟨"c5s1", "sub51", "p5", "melanoma", 50, "F", "miraclib", "yes", "PBMC",
    some 0, 10, 20, 30, 40, 0⟩

/-- The store produced by normalizing [rawC5w]. -/
def dbC5w : DB :=
  ⟨[toSubjectRow rawC5w], [⟨"p5", "PBMC"⟩], [toSampleRow rawC5w]⟩

/-- An all-zero-counts raw row, for the counterexample of C5. -/
def rawC5x : RawRow :=
  ⟨"x1", "sub52", "p5", "melanoma", 50, "F", "miraclib", "yes", "PBMC",
    some 0, 0, 0, 0, 0, 0⟩

/-- C5, counterexample: a sample with total_count = 0 does produce
percentage rows — five of them, each with percentage = NaN — and no
EmptySampleError exists (initialize_database returns ok), refuting the
second half of the claim. -/
theorem C5_counterexample :
    (init_database [rawC5x]).map (fun db =>
        ((summaryOf db).filter (fun r => r.sample == "x1")).map
          (fun r => r.percentage)) =
      .ok [Rfloat.nan, Rfloat.nan, Rfloat.nan, Rfloat.nan, Rfloat.nan] := by
  with_unfolding_all decide

/-- C5 (amended): for every sample with total_count different from 0, the
percentage values of its rows in the long frame are finite and sum to 1
exactly in the rational model — in particular within the tolerance 1e-9 of
the claim; samples with total_count = 0 instead produce five rows with NaN
percentage and raise nothing (see the counterexample). -/
theorem C5_percentage_sum :
    ∀ (rows : List RawRow) (db : DB) (t : SampleRow),
      init_database rows = .ok db → t ∈ db.sample_table → totalCount t ≠ 0 →
      ∃ qs : List ℚ,
        ((summaryOf db).filter (fun r => r.sample == t.sample)).map
          (fun r => r.percentage) = qs.map Rfloat.val ∧
        qs.sum = 1 ∧ |qs.sum - 1| ≤ 1 / 1000000000 := by
  intro rows db t h ht hT
  obtain ⟨qs, h1, h2⟩ := summary_percentages_sum h ht hT
  refine ⟨qs, h1, h2, ?_⟩
  rw [h2]
  norm_num

/-- C5, witness: the amended theorem applied to the store built from
rawC5w, whose sample has total_count 100. -/
theorem C5_percentage_sum_witness :
    ∃ qs : List ℚ,
      ((summaryOf dbC5w).filter (fun r => r.sample == (toSampleRow rawC5w).sample)).map
        (fun r => r.percentage) = qs.map Rfloat.val ∧
      qs.sum = 1 ∧ |qs.sum - 1| ≤ 1 / 1000000000 :=
  C5_percentage_sum [rawC5w] dbC5w (toSampleRow rawC5w)
    (by with_unfolding_all decide) (by with_unfolding_all decide)
    (by with_unfolding_all decide)

/-! ### Claim C6 -/

/-- A sample-table row for the C6 witness. -/
def sampC6 : SampleRow := ⟨"c6s1", "sbj0001", "p6", some 0, 1, 2, 3, 4, 5⟩

/-- A sample-table row for the C6 counterexample; its five melt rows all
carry the same sample key, so any order of them is sorted. -/
def sampC6x : SampleRow := ⟨"c6x", "sbj0002", "p6", some 0, 1, 2, 3, 4, 5⟩

/-- C6, counterexample: df.sort_values with the pandas default
kind=quicksort guarantees only a sorted permutation of its input
(quicksort is documented as not stable), modelled by pandasSortOutput.
For the melt frame of a single sample all five rows share one sample key,
so the reversed frame is an admissible sort output, yet it inverts the
relative order of the tied rows (the filter on the tied key differs from
the pre-sort filter).  The stability asserted by the claim is therefore
not guaranteed by the code. -/
theorem C6_counterexample :
    pandasSortOutput (df_melt [sampC6x]) ((df_melt [sampC6x]).reverse) ∧
    ¬ TieStable (df_melt [sampC6x]) ((df_melt [sampC6x]).reverse) := by
  constructor
  · with_unfolding_all decide
  · intro hts
    have h := hts "c6x"
    revert h
    with_unfolding_all decide

/-- C6 (amended): the output of the Reshaper is sorted by sample_id in
ascending lexicographic order — this holds for every output admitted by the
sort contract, and survives the addition of the percentage column — but the
relative order of rows with equal sample_id is not specified (the pandas
default quicksort gives no stability guarantee); the deterministic sortMelt
of the executable model is one admissible implementation. -/
theorem C6_sorted_by_sample :
    ∀ (samps : List SampleRow) (out : List MeltRow),
      pandasSortOutput (df_melt samps) out →
      List.Pairwise (fun a b => leChars a.sample.data b.sample.data = true)
        (out.map addPercentage) ∧
      pandasSortOutput (df_melt samps) (sortMelt (df_melt samps)) := by
  intro samps out hout
  constructor
  · exact List.Pairwise.map addPercentage (fun a b hab => hab) hout.2
  · exact pandasSortOutput_sortMelt _

/-- C6, witness: the amended theorem applied to the melt frame of sampC6
with the identity output, which is sorted since the frame has one sample. -/
theorem C6_sorted_by_sample_witness :
    List.Pairwise (fun a b => leChars a.sample.data b.sample.data = true)
      ((df_melt [sampC6]).map addPercentage) ∧
    pandasSortOutput (df_melt [sampC6]) (sortMelt (df_melt [sampC6])) :=
  C6_sorted_by_sample [sampC6] (df_melt [sampC6]) (by with_unfolding_all decide)

/-! ### Claim C7 -/

/-- A raw row assigning sample_type PBMC to project p7. -/
def rawC7a : RawRow :=
  ⟨"c7s1", "sub71", "p7", "melanoma", 50, "F", "miraclib", "yes", "PBMC",
    some 0, 1, 2, 3, 4, 5⟩

/-- A raw row assigning the conflicting sample_type tumor to project p7. -/
def rawC7b : RawRow :=
  ⟨"c7s2", "sub72", "p7", "melanoma", 61, "M", "miraclib", "no", "tumor",
    some 0, 1, 2, 3, 4, 5⟩

/-- A second conflicting pair on a different project key q9, used by the
counterexample to show the surfaced error is independent of the key. -/
def rawC7c : RawRow :=
  ⟨"c7s3", "sub73", "q9", "melanoma", 44, "F", "miraclib", "yes", "PBMC",
    some 0, 1, 2, 3, 4, 5⟩

/-- The q9/tumor half of the second conflicting pair. -/
def rawC7d : RawRow :=
  ⟨"c7s4", "sub74", "q9", "melanoma", 45, "M", "miraclib", "no", "tumor",
    some 0, 1, 2, 3, 4, 5⟩

/-- C7, counterexample: Project-table construction does abort on a
conflicting project, but what the caller receives is the sqlite3
IntegrityError whose whole content is UNIQUE constraint failed:
project_table.project — it names the table and the column only.  Two runs
whose offending keys differ (p7 and q9) abort with the identical error
value, so the error does not determine, let alone surface, the offending
project key, refuting the key-surfacing conjunct of the claim. -/
theorem C7_counterexample :
    project_table [rawC7a, rawC7b] =
      .error (.pkViolation "project_table" "project") ∧
    project_table [rawC7c, rawC7d] =
      .error (.pkViolation "project_table" "project") ∧
    rawC7a.project ≠ rawC7c.project := by
  with_unfolding_all decide

/-- C7 (amended): if some project appears in the raw data with two distinct
sample_type values, SELECT DISTINCT keeps both (project, sample_type)
pairs, the INSERT into project_table (project TEXT PRIMARY KEY) hits a
uniqueness violation, Project-table construction aborts with the error
UNIQUE constraint failed: project_table.project, and initialize_database
cannot succeed; the error surfaced to the caller names only the table and
the column, not the offending project key value. -/
theorem C7_project_conflict_errors :
    ∀ (rows : List RawRow) (r1 r2 : RawRow), r1 ∈ rows → r2 ∈ rows →
      r1.project = r2.project → r1.sample_type ≠ r2.sample_type →
      project_table rows = .error (.pkViolation "project_table" "project") ∧
      (∀ db : DB, init_database rows ≠ .ok db) := by
  intro rows r1 r2 h1 h2 hproj hst
  have hx : ProjectRow.mk r1.project r1.sample_type ∈
      rows.map (fun r => ProjectRow.mk r.project r.sample_type) :=
    List.mem_map_of_mem _ h1
  have hy : ProjectRow.mk r2.project r2.sample_type ∈
      rows.map (fun r => ProjectRow.mk r.project r.sample_type) :=
    List.mem_map_of_mem _ h2
  have hxy : ProjectRow.mk r1.project r1.sample_type ≠
      ProjectRow.mk r2.project r2.sample_type := by
    intro he
    rw [ProjectRow.mk.injEq] at he
    exact hst he.2
  have hdx := (mem_dedupF (rows.map (fun r => ProjectRow.mk r.project r.sample_type))
    (ProjectRow.mk r1.project r1.sample_type)).mpr hx
  have hdy := (mem_dedupF (rows.map (fun r => ProjectRow.mk r.project r.sample_type))
    (ProjectRow.mk r2.project r2.sample_type)).mpr hy
  have hdup : ¬ (((dedupF (rows.map (fun r => ProjectRow.mk r.project r.sample_type))).map
      (fun t => t.project)).Nodup) := by
    intro hnd
    exact hxy (List.inj_on_of_nodup_map hnd hdx hdy hproj)
  have herr : project_table rows = .error (.pkViolation "project_table" "project") := by
    have hp := insertPKRows_error_of_dup "project_table" "project"
      (fun t => t.project)
      (dedupF (rows.map (fun r => ProjectRow.mk r.project r.sample_type))) []
      (by simp) (by simpa using hdup)
    simpa [project_table] using hp
  refine ⟨herr, fun db hdb => ?_⟩
  obtain ⟨_, hpj, _⟩ := (init_database_ok_iff rows db).mp hdb
  rw [herr] at hpj
  cases hpj

/-- C7, witness: the amended theorem applied to two concrete raw rows that
map project p7 to PBMC and to tumor respectively. -/
theorem C7_project_conflict_errors_witness :
    project_table [rawC7a, rawC7b] =
      .error (.pkViolation "project_table" "project") ∧
    (∀ db : DB, init_database [rawC7a, rawC7b] ≠ .ok db) :=
  C7_project_conflict_errors [rawC7a, rawC7b] rawC7a rawC7b (by simp) (by simp)
    (by with_unfolding_all decide) (by with_unfolding_all decide)

/-! ### Claim C8 -/

/-- A raw row for the C8 witness. -/
def rawC8w : RawRow :=
  ⟨"c8s1", "sub81", "p8", "melanoma", 50, "F", "miraclib", "yes", "PBMC",
    some 0, 1, 2, 3, 4, 5⟩

/-- The store produced by normalizing [rawC8w]. -/
def dbC8w : DB :=
  ⟨[toSubjectRow rawC8w], [⟨"p8", "PBMC"⟩], [toSampleRow rawC8w]⟩

/-- C8: the two merges of the pipeline have inner-join semantics with
unique right-hand keys (both metadata tables carry PRIMARY KEYs), so the
joined frame consists of exactly the long rows whose subject and project
both resolve, each exactly once: projecting the joined rows back to their
long-frame columns yields the filter of the long frame by key presence.
Rows with an absent reference are silently excluded — the output is a plain
list, no error is possible — and the long-frame row count equals the joined
row count plus the count of rows failing the presence test. -/
theorem C8_inner_join_excludes :
    ∀ (rows : List RawRow) (db : DB), init_database rows = .ok db →
      (masterOf db).map projFreq =
        (df_total_melt db.sample_table).filter
          (presentB db.subject_table db.project_table) ∧
      (df_total_melt db.sample_table).length =
        (masterOf db).length +
          ((df_total_melt db.sample_table).filter
            (fun f => !(presentB db.subject_table db.project_table f))).length := by
  intro rows db h
  have h1 := df_master_eq_filter (df_total_melt db.sample_table)
    db.subject_table db.project_table (db_subject_nodup h) (db_project_nodup h)
  refine ⟨h1, ?_⟩
  have hlen : (masterOf db).length =
      ((df_total_melt db.sample_table).filter
        (presentB db.subject_table db.project_table)).length := by
    rw [← h1, List.length_map]
    rfl
  rw [hlen]
  exact length_filter_split _ _

/-- C8, witness: the theorem applied to the concrete store built from
rawC8w. -/
theorem C8_inner_join_excludes_witness :
    (masterOf dbC8w).map projFreq =
      (df_total_melt dbC8w.sample_table).filter
        (presentB dbC8w.subject_table dbC8w.project_table) ∧
    (df_total_melt dbC8w.sample_table).length =
      (masterOf dbC8w).length +
        ((df_total_melt dbC8w.sample_table).filter
          (fun f => !(presentB dbC8w.subject_table dbC8w.project_table f))).length :=
  C8_inner_join_excludes [rawC8w] dbC8w (by with_unfolding_all decide)

/-! ### Claim C9 -/

/-- A raw row for the C9 witness. -/
def rawC9w : RawRow :=
  ⟨"c9s1", "sub91", "p9", "melanoma", 50, "F", "miraclib", "yes", "PBMC",
    some 0, 1, 2, 3, 4, 5⟩

/-- The store produced by normalizing [rawC9w]. -/
def dbC9w : DB :=
  ⟨[toSubjectRow rawC9w], [⟨"p9", "PBMC"⟩], [toSampleRow rawC9w]⟩

/-- A nonempty prior store with unrelated contents, which the normalizer
must discard. -/
def priorC9 : DB :=
  ⟨[⟨"sbj9999", "carcinoma", 1, "M", "phauximab", "no"⟩],
   [⟨"pOld", "WB"⟩],
   [⟨"old1", "sbj9999", "pOld", none, 7, 7, 7, 7, 7⟩]⟩

/-- C9: the normalizer replaces any prior normalized store entirely — the
SQL script drops and recreates each table and the raw load replaces the
cell-count table — so its result does not depend on the prior store
contents, and re-running it on its own output reproduces that output
byte for byte (the same Subject, Project and Sample relations). -/
theorem C9_idempotent :
    ∀ (rows : List RawRow) (prior1 prior2 db : DB),
      init_store rows prior1 = .ok db →
      init_store rows db = .ok db ∧
      init_store rows prior1 = init_store rows prior2 := by
  intro rows prior1 prior2 db h
  exact ⟨h, rfl⟩

/-- C9, witness: the theorem applied to rawC9w with a nonempty junk prior
store; re-running on the produced store reproduces it. -/
theorem C9_idempotent_witness :
    init_store [rawC9w] dbC9w = .ok dbC9w ∧
    init_store [rawC9w] priorC9 = init_store [rawC9w] dbC9w :=
  C9_idempotent [rawC9w] priorC9 dbC9w dbC9w (by with_unfolding_all decide)

/-! ### Claim C10 -/

/-- Two raw rows sharing the sample value dup1. -/
def rawC10a : RawRow :=
  ⟨"dup1", "sub101", "pA", "melanoma", 50, "F", "miraclib", "yes", "PBMC",
    some 0, 1, 2, 3, 4, 5⟩

/-- The second row with the duplicated sample key (different subject). -/
def rawC10b : RawRow :=
  ⟨"dup1", "sub102", "pA", "melanoma", 61, "M", "miraclib", "no", "PBMC",
    some 0, 5, 5, 5, 5, 5⟩

/-- C10: the Sample insert copies every raw row without DISTINCT into a
table whose PRIMARY KEY is sample, so a duplicated sample value is not
deduplicated: whenever the earlier stages succeed, Sample-table
construction aborts with a primary-key uniqueness violation, and
initialize_database cannot succeed. -/
theorem C10_duplicate_sample_pk_violation :
    ∀ rows : List RawRow, ¬ ((rows.map (fun r => r.sample)).Nodup) →
      (∀ subs projs, subject_table rows = .ok subs → project_table rows = .ok projs →
        sample_table subs projs rows = .error (.pkViolation "sample_table" "sample")) ∧
      (∀ db : DB, init_database rows ≠ .ok db) := by
  intro rows hdup
  have key : ∀ subs projs, subject_table rows = .ok subs →
      project_table rows = .ok projs →
      sample_table subs projs rows = .error (.pkViolation "sample_table" "sample") := by
    intro subs projs hs hp
    have hsubs : subs = dedupF (rows.map toSubjectRow) := by
      simpa using insertPKRows_ok_eq _ _ _ _ [] _ hs
    have hprojs : projs = dedupF (rows.map (fun r => ProjectRow.mk r.project r.sample_type)) := by
      simpa using insertPKRows_ok_eq _ _ _ _ [] _ hp
    have hfk : ∀ t ∈ rows.map toSampleRow,
        t.subject ∈ subs.map (fun s => s.subject) ∧
        t.project ∈ projs.map (fun p => p.project) := by
      intro t ht
      obtain ⟨r, hr, rfl⟩ := List.mem_map.mp ht
      constructor
      · rw [hsubs]
        have : toSubjectRow r ∈ dedupF (rows.map toSubjectRow) :=
          (mem_dedupF _ _).mpr (List.mem_map_of_mem toSubjectRow hr)
        exact List.mem_map_of_mem (fun s => s.subject) this
      · rw [hprojs]
        have : ProjectRow.mk r.project r.sample_type ∈
            dedupF (rows.map (fun r => ProjectRow.mk r.project r.sample_type)) :=
          (mem_dedupF _ _).mpr (List.mem_map_of_mem _ hr)
        exact List.mem_map_of_mem (fun p => p.project) this
    have hdup' : ¬ (((([] : List SampleRow) ++ rows.map toSampleRow).map
        (fun u => u.sample)).Nodup) := by
      simp only [List.nil_append, List.map_map]
      exact hdup
    have hs' := insertSampleRows_error_of_dup
      (subs.map (fun s => s.subject)) (projs.map (fun p => p.project))
      (rows.map toSampleRow) [] (by simp) hfk hdup'
    simpa [sample_table] using hs'
  refine ⟨key, ?_⟩
  intro db hdb
  obtain ⟨hs, hp, hsam⟩ := (init_database_ok_iff rows db).mp hdb
  have he := key _ _ hs hp
  rw [hsam] at he
  cases he

/-- C10, witness: the theorem applied to two concrete raw rows sharing the
sample value dup1. -/
theorem C10_duplicate_sample_pk_violation_witness :
    (∀ subs projs, subject_table [rawC10a, rawC10b] = .ok subs →
      project_table [rawC10a, rawC10b] = .ok projs →
      sample_table subs projs [rawC10a, rawC10b] =
        .error (.pkViolation "sample_table" "sample")) ∧
    (∀ db : DB, init_database [rawC10a, rawC10b] ≠ .ok db) :=
  C10_duplicate_sample_pk_violation [rawC10a, rawC10b] (by with_unfolding_all decide)
